import Mathlib

/-!
Verification of the fwd repository's task engine against its specification.

The definitions below are shallow embeddings of the Python source:
- `Sess`, `copyStep`, `tagStep` embed the forwarding session dictionary and the
  body of `forwarding_loop` / `copy_message` / `forward_messages` (src/plugins/regix.py).
- `iterMsgs` embeds `iter_messages` (src/plugins/test.py).
- `unequifyStep` / `unequifyRun` embed the dedup loop of `unequify` (src/plugins/unequify.py).
- `sendLoop` / `safeSend` embed `safe_send_message` (src/plugins/regix.py).
- `bmLoop` / `stepCounters` embed `broadcast_messages` and the classification
  in `broadcast` (src/plugins/broadcast.py).
- `tsAddIsTime` embeds `TaskStatus.add` and `TaskStatus.divide` embeds the
  static helper of the same name (src/plugins/utils.py).
- `startPublicAdm` embeds the admission check of `start_public` (src/plugins/regix.py)
  and `unequifyAdm` the one of `unequify` (src/plugins/unequify.py).
-/

/-- The mutable forwarding-session counters initialised in `start_public`
(regix.py lines 219-226).  The session dictionary has no `filtered` key, so the
specification's filteredCount is identically 0 for this loop. -/
structure Sess where
  fetched : Nat
  total_files : Nat
  duplicate : Nat
  deleted : Nat
  skip : Nat
  total : Nat
  deriving Repr, DecidableEq

/-- Session initialisation from `start_public`: every counter starts at 0,
`total` is the last message id estimate and `skip` is the user's skip count. -/
def initSess (skipCount totalEst : Nat) : Sess :=
  { fetched := 0, total_files := 0, duplicate := 0, deleted := 0
  , skip := skipCount, total := totalEst }

/-- Outcome of one iteration of `forwarding_loop` in copy mode
(`forward_tag = False`): the item is empty or a service message, or it is
content whose `copy_message` call succeeds or terminally fails. -/
inductive CopyItem where
  | svc : CopyItem
  | item (copyOk : Bool) : CopyItem
  deriving Repr, DecidableEq

/-- Effect of `copy_message` (regix.py lines 291-333) on the session: a
successful copy leaves the counters alone; a terminal failure (RPC error or
exhausted FloodWait retries) increments `deleted`. -/
def copyMessageUpd (s : Sess) (copyOk : Bool) : Sess :=
  if copyOk then s else { s with deleted := s.deleted + 1 }

/-- One iteration of `forwarding_loop` in copy mode (regix.py lines 262-289):
`fetched` is incremented first; empty or service items increment `deleted` and
are dropped; otherwise `copy_message` runs and then the loop unconditionally
increments `total_files` (line 288), even when the copy failed. -/
def copyStep (s : Sess) (it : CopyItem) : Sess :=
  let s := { s with fetched := s.fetched + 1 }
  match it with
  | .svc => { s with deleted := s.deleted + 1 }
  | .item copyOk =>
      let s := copyMessageUpd s copyOk
      { s with total_files := s.total_files + 1 }

/-- Running the copy-mode loop over a list of item outcomes. -/
def copyRun (s : Sess) (items : List CopyItem) : Sess :=
  items.foldl copyStep s

/-- Outcome of one iteration of `forwarding_loop` in tag-forward mode
(`forward_tag = True`): an empty or service item, or a content item; when the
batch is flushed, `flushOk` says whether `forward_messages` succeeded. -/
inductive TagItem where
  | svc : TagItem
  | item (flushOk : Bool) : TagItem
  deriving Repr, DecidableEq

/-- Tag-forward mode loop state: the session plus the pending batch size and
the record of flush sizes (one entry per `forward_messages` platform call). -/
structure TagSt where
  s : Sess
  batch : Nat
  flushes : List Nat
  deriving Repr, DecidableEq

/-- Effect of `forward_messages` (regix.py lines 335-362) on the session: on
success `total_files` grows by the batch size, on terminal failure `deleted`
does. -/
def forwardMessagesUpd (s : Sess) (n : Nat) (flushOk : Bool) : Sess :=
  if flushOk then { s with total_files := s.total_files + n }
  else { s with deleted := s.deleted + n }

/-- One iteration of `forwarding_loop` in tag-forward mode (regix.py lines
262-285): `fetched` is incremented, empty or service items increment `deleted`;
otherwise the message id joins the batch and the batch is flushed exactly when
its size reaches 100 or `total - fetched <= 100`. -/
def tagStep (st : TagSt) (it : TagItem) : TagSt :=
  let s := { st.s with fetched := st.s.fetched + 1 }
  match it with
  | .svc => { st with s := { s with deleted := s.deleted + 1 } }
  | .item flushOk =>
      let b := st.batch + 1
      if 100 ≤ b ∨ s.total - s.fetched ≤ 100 then
        { s := forwardMessagesUpd s b flushOk, batch := 0
        , flushes := st.flushes ++ [b] }
      else
        { st with s := s, batch := b }

/-- Running the tag-forward loop over a list of item outcomes. -/
def tagRun (st : TagSt) (items : List TagItem) : TagSt :=
  items.foldl tagStep st

/-- Initial tag-forward loop state for a fresh session. -/
def initTagSt (skipCount totalEst : Nat) : TagSt :=
  { s := initSess skipCount totalEst, batch := 0, flushes := [] }

/-- The sum of outcome counters the specification bounds by `fetched`. -/
def outcomeSum (s : Sess) : Nat :=
  s.total_files + s.duplicate + s.deleted

/-- Safe division from `TaskStatus.divide` (utils.py lines 129-146): divide by
the denominator when it is non-zero and by 1 otherwise. -/
def TaskStatus.divide (numerator denominator : Int) : ℚ :=
  (numerator : ℚ) / (if denominator ≠ 0 then (denominator : ℚ) else 1)

/-- A task entry of `Temp.status` as a map from field name to stored number;
`TaskStatus.add` reads and writes fields by string key (utils.py). -/
def TaskEntry : Type := String → Nat

/-- Field update on a task entry. -/
def entryUpd (e : TaskEntry) (k : String) (v : Nat) : TaskEntry :=
  fun k' => if k' = k then v else e k'

/-- Embedding of `TaskStatus.add` (utils.py lines 99-118): a no-op when the task id is not
registered; with `is_time = True` it stores the current time under the key
`start`; otherwise it adds `value` to the stored value of `key`. -/
def tsAdd (data : Option TaskEntry) (key : Option String) (value : Nat)
    (isTime : Bool) (now : Nat) : Option TaskEntry :=
  match data with
  | none => none
  | some e =>
      if isTime then some (entryUpd e "start" now)
      else
        match key with
        | some k => some (entryUpd e k (e k + value))
        | none => some e

/-- The `is_time = True` call of `TaskStatus.add`, the spec's MarkStart. -/
def tsAddIsTime (data : Option TaskEntry) (now : Nat) : Option TaskEntry :=
  tsAdd data none 1 true now

/-- A fresh task entry as stored by `TaskStatus.store` (utils.py lines 56-69). -/
def storeEntry (skipCount limit : Nat) : TaskEntry :=
  fun k =>
    if k = "skip" then skipCount
    else if k = "limit" then limit
    else if k = "fetched" then skipCount
    else if k = "total" then limit
    else 0

/-- Embedding of `iter_messages` (test.py lines 55-92): ids yielded when enumerating a chat
in which every requested id resolves to a message.  Each round computes
`batch_size = min 200 (limit - current)`, stops when it is not positive, and
otherwise requests and yields the ids `current .. current + batch_size`
(the Python `range(current, current + batch_size + 1)`), advancing `current`
once per yielded message. -/
def iterMsgs (limit : Nat) (current : Nat) : List Nat :=
  if _h : min 200 (limit - current) = 0 then []
  else
    List.range' current (min 200 (limit - current) + 1) ++
      iterMsgs limit (current + (min 200 (limit - current) + 1))
termination_by limit - current
decreasing_by
  have h1 : min 200 (limit - current) ≤ limit - current := Nat.min_le_right _ _
  omega

/-- Batch size constant of the dedup engine (unequify.py line 18). -/
def BATCH_SIZE : Nat := 100

/-- State of the `unequify` dedup loop (unequify.py lines 231-291): the set of
seen fingerprints (`messages`), the pending-delete batch (`duplicates`), the
stream and delete counters, and the ids actually deleted so far (all
`delete_messages` calls are modelled as succeeding). -/
structure UneqSt where
  messages : List Nat
  duplicates : List Nat
  total : Nat
  deleted : Nat
  deletedIds : List Nat
  deriving Repr, DecidableEq

/-- One iteration of the dedup loop for a streamed document `(id, fingerprint)`
(unequify.py lines 251-278): a fingerprint already seen sends the id to the
pending batch, a fresh one is recorded; `total` is incremented; the batch is
flushed through `delete_messages` when it reaches `BATCH_SIZE`. -/
def unequifyStep (st : UneqSt) (msg : Nat × Nat) : UneqSt :=
  let st :=
    if msg.2 ∈ st.messages then { st with duplicates := st.duplicates ++ [msg.1] }
    else { st with messages := msg.2 :: st.messages }
  let st := { st with total := st.total + 1 }
  if BATCH_SIZE ≤ st.duplicates.length then
    { st with
        deleted := st.deleted + st.duplicates.length,
        deletedIds := st.deletedIds ++ st.duplicates,
        duplicates := [] }
  else st

/-- Initial dedup state (unequify.py lines 231-233). -/
def initUneqSt : UneqSt :=
  { messages := [], duplicates := [], total := 0, deleted := 0, deletedIds := [] }

/-- A complete dedup run over a stream of `(id, fingerprint)` documents,
including the final partial-batch flush (unequify.py lines 280-285). -/
def unequifyRun (msgs : List (Nat × Nat)) : UneqSt :=
  let st := msgs.foldl unequifyStep initUneqSt
  if st.duplicates = [] then st
  else
    { st with
        deleted := st.deleted + st.duplicates.length,
        deletedIds := st.deletedIds ++ st.duplicates,
        duplicates := [] }

/-- The channel content remaining after a dedup run in which every delete call
succeeded: the documents whose ids were not deleted. -/
def channelAfter (msgs : List (Nat × Nat)) : List (Nat × Nat) :=
  msgs.filter (fun p => decide (p.1 ∉ (unequifyRun msgs).deletedIds))

/-- Specification helper: ids the dedup loop marks as duplicates, namely the
ids of documents whose fingerprint already occurred earlier in the stream. -/
def collectDups : List Nat → List (Nat × Nat) → List Nat
  | _, [] => []
  | seen, p :: rest =>
      if p.2 ∈ seen then p.1 :: collectDups seen rest
      else collectDups (p.2 :: seen) rest

/-- Specification helper: the seen-fingerprint set after streaming a list. -/
def seenFold : List Nat → List (Nat × Nat) → List Nat
  | seen, [] => seen
  | seen, p :: rest =>
      if p.2 ∈ seen then seenFold seen rest
      else seenFold (p.2 :: seen) rest

/-- Specification helper: the documents the dedup loop keeps, namely the first
occurrence of each fingerprint. -/
def keepNondups : List Nat → List (Nat × Nat) → List (Nat × Nat)
  | _, [] => []
  | seen, p :: rest =>
      if p.2 ∈ seen then keepNondups seen rest
      else p :: keepNondups (p.2 :: seen) rest

/-- Outcome of one attempt of a wrapped platform send operation. -/
inductive SendOutcome where
  | ok (v : Nat)
  | flood (w : Nat)
  | rpcErr
  deriving Repr, DecidableEq

/-- Observable result of `safe_send_message`: the returned value (`none` when
the send failed), the total time slept in backoffs, and the number of attempts
made. -/
structure SendRun where
  result : Option Nat
  sleep : Nat
  attempts : Nat
  deriving Repr, DecidableEq

/-- The retry loop of `safe_send_message` (regix.py lines 32-49) over the
remaining attempt indices: success returns immediately, a FloodWait carrying
`w` sleeps `w + 1` and retries, an RPC error returns `none` on the final
attempt, and an exhausted loop returns `none`. -/
def sendLoop (op : Nat → SendOutcome) (maxA : Nat) :
    List Nat → Nat → Nat → SendRun
  | [], sleepAcc, made => ⟨none, sleepAcc, made⟩
  | a :: rest, sleepAcc, made =>
      match op a with
      | .ok v => ⟨some v, sleepAcc, made + 1⟩
      | .flood w => sendLoop op maxA rest (sleepAcc + (w + 1)) (made + 1)
      | .rpcErr =>
          if a = maxA - 1 then ⟨none, sleepAcc, made + 1⟩
          else sendLoop op maxA rest sleepAcc (made + 1)

/-- Embedding of `safe_send_message` with its `max_attempts = 3`, driven by the outcome the
platform returns on each attempt index. -/
def safeSend (op : Nat → SendOutcome) : SendRun :=
  sendLoop op 3 (List.range 3) 0 0

/-- Per-attempt platform response for one broadcast recipient. -/
inductive URes where
  | ok
  | flood (w : Nat)
  | deactivated
  | blocked
  | writeForbidden
  deriving Repr, DecidableEq

/-- The status string returned by `broadcast_messages`. -/
inductive BStatus where
  | success
  | deletedSt
  | blockedSt
  | errorSt
  deriving Repr, DecidableEq

/-- Result of `broadcast_messages` for one recipient, together with whether a
removal of the recipient from the persistent store was requested. -/
structure BMRes where
  isSuccess : Bool
  status : BStatus
  removalRequested : Bool
  deriving Repr, DecidableEq

/-- The attempt loop of `broadcast_messages` (broadcast.py lines 137-159):
success returns `(True, Success)`; FloodWait sleeps and retries; a deactivated
account requests `db.delete_user` (whose own failure `delOk = false` is caught
and logged, never propagated) and returns `(False, Deleted)`; a blocked bot
returns `(False, Blocked)`; other errors return `(False, Error)`, as does an
exhausted loop. -/
def bmLoop (resp : Nat → URes) (delOk : Bool) : List Nat → BMRes
  | [] => ⟨false, .errorSt, false⟩
  | a :: rest =>
      match resp a with
      | .ok => ⟨true, .success, false⟩
      | .flood _ => bmLoop resp delOk rest
      | .deactivated => ⟨false, .deletedSt, true⟩
      | .blocked => ⟨false, .blockedSt, false⟩
      | .writeForbidden => ⟨false, .errorSt, false⟩

/-- Embedding of `broadcast_messages` with its `max_attempts = 3`. -/
def broadcastMessages (resp : Nat → URes) (delOk : Bool) : BMRes :=
  bmLoop resp delOk (List.range 3)

/-- Aggregate counters of the broadcast loop (broadcast.py lines 52-56). -/
structure BCount where
  done : Nat
  success : Nat
  blocked : Nat
  deleted : Nat
  failed : Nat
  deriving Repr, DecidableEq

/-- Classification of one recipient outcome in the broadcast loop
(broadcast.py lines 82-93): exactly one counter is bumped according to
`(is_success, status)`, then `done` is incremented. -/
def stepCounters (c : BCount) (r : BMRes) : BCount :=
  let c :=
    if r.isSuccess then { c with success := c.success + 1 }
    else
      match r.status with
      | .blockedSt => { c with blocked := c.blocked + 1 }
      | .deletedSt => { c with deleted := c.deleted + 1 }
      | .errorSt => { c with failed := c.failed + 1 }
      | .success => c
  { c with done := c.done + 1 }

/-- A value stored in the `temp.lock` dictionary, which the source uses both
for `asyncio.Lock` objects (inserted by `setdefault`) and for boolean busy
flags (assigned by `stop` and at admission). -/
inductive LockVal where
  | lockObj
  | flag (b : Bool)
  deriving Repr, DecidableEq

/-- Python truthiness of a `temp.lock` value: a `Lock` object is truthy. -/
def truthy : LockVal → Bool
  | .lockObj => true
  | .flag b => b

/-- Outcome of the admission prologue of `start_public`. -/
inductive AdmResult where
  | busy
  | typeError
  | proceed
  deriving Repr, DecidableEq

/-- Admission prologue of `start_public` (regix.py lines 140-144):
`temp.lock.setdefault(user_id, asyncio.Lock())` stores a `Lock` for a fresh
key; entering `async with` on a stored boolean raises `TypeError`; the busy
check then reads `temp.lock.get(user_id, False)`, which is the value just
stored, and rejects when it is truthy. -/
def startPublicAdm (locks : Nat → Option LockVal) (uid : Nat) : AdmResult :=
  let v := (locks uid).getD LockVal.lockObj
  match v with
  | .flag _ => .typeError
  | .lockObj => if truthy LockVal.lockObj then .busy else .proceed

/-- Outcome of the admission prologue of `unequify`. -/
inductive UAdmResult where
  | bannedRej
  | busy
  | typeError
  | proceed
  deriving Repr, DecidableEq

/-- Admission prologue of `unequify` (unequify.py lines 166-173): same
`temp.lock` pattern as `start_public`, with a banned-user check in between. -/
def unequifyAdm (banned : List Nat) (locks : Nat → Option LockVal) (uid : Nat) :
    UAdmResult :=
  let v := (locks uid).getD LockVal.lockObj
  match v with
  | .flag _ => .typeError
  | .lockObj =>
      if uid ∈ banned then .bannedRej
      else if truthy LockVal.lockObj then .busy else .proceed

/-- Teardown-relevant actions emitted by the forwarding task. `stopClient`
stands for one execution of `stop` (regix.py lines 442-461), which stops the
task client, removes the database forwarding record, decrements
`temp.forwardings` and releases the user busy marker. -/
inductive TAct where
  | removeChat
  | editCancelled
  | notifyCancel
  | stopClient
  | editError
  | notifyDone
  | editDone
  | delSession
  deriving Repr, DecidableEq

/-- Actions of `is_cancelled` when the cancel flag is set (regix.py lines
433-439): release the target-chat marker, publish the Cancelled snapshot,
notify the user, and run `stop`. -/
def isCancelledActs : List TAct :=
  [.removeChat, .editCancelled, .notifyCancel, .stopClient]

/-- The cooperative cancel flag as observed at loop-iteration index `i`: an
external actor sets it before iteration `k`. -/
def cancelAt : Option Nat → Nat → Bool
  | none, _ => false
  | some k, i => decide (k ≤ i)

/-- One dispatched item of `forwarding_loop`: it is processed normally or its
dispatch raises an exception. -/
inductive DItem where
  | normal
  | raises
  deriving Repr, DecidableEq

/-- How `forwarding_loop` exits: stream end, cancellation, or an exception. -/
inductive LoopOutcome where
  | finished
  | cancelled
  | errored
  deriving Repr, DecidableEq

/-- Embedding of `forwarding_loop` reduced to its teardown-relevant behaviour (regix.py
lines 262-289): the cancel flag is checked at the top of each iteration and
`is_cancelled` performs its own teardown before the loop returns; a dispatch
exception propagates out of the loop. -/
def floop (c : Option Nat) : List DItem → Nat → List TAct × LoopOutcome
  | [], _ => ([], .finished)
  | it :: rest, i =>
      if cancelAt c i then (isCancelledActs, .cancelled)
      else
        match it with
        | .raises => ([], .errored)
        | .normal => floop c rest (i + 1)

/-- Actions of `finish_forwarding` (regix.py lines 463-485): release the
target-chat marker if still set, notify completion, publish the final
snapshot, run `stop`, and retire the session entry. -/
def finishActs (chatStillMarked : Bool) : List TAct :=
  (if chatStillMarked then [TAct.removeChat] else []) ++
    [.notifyDone, .editDone, .stopClient, .delSession]

/-- The dispatch section of `start_public` (regix.py lines 227-236): run the
loop inside `try`, edit an error report in `except`, and always run
`finish_forwarding` in `finally`.  The cancellation branch of `is_cancelled`
already removed the target-chat marker, so `finish_forwarding` skips it then. -/
def startPublicRun (items : List DItem) (c : Option Nat) : List TAct :=
  let r := floop c items 0
  let handlerActs : List TAct :=
    match r.2 with
    | .errored => [.editError]
    | _ => []
  let chatStillMarked : Bool :=
    match r.2 with
    | .cancelled => false
    | _ => true
  r.1 ++ handlerActs ++ finishActs chatStillMarked

/-- Number of executions of `stop` in an action trace: the idempotent-release
counter of the specification's teardown property. -/
def stopCount (acts : List TAct) : Nat :=
  acts.count TAct.stopClient

/-- The stored `start` value of a possibly-registered task entry. -/
def getStart (data : Option TaskEntry) : Option Nat :=
  data.map (fun e => e "start")

/-- C10: `TaskStatus.divide` is total and never raises a division-by-zero
error: it returns `n / d` when `d` is non-zero and `n / 1 = n` when `d` is
zero. -/
theorem C10_divide_total (n d : Int) :
    (d ≠ 0 → TaskStatus.divide n d = (n : ℚ) / (d : ℚ)) ∧
    (d = 0 → TaskStatus.divide n d = (n : ℚ)) := by
  constructor
  · intro h
    simp [TaskStatus.divide, h]
  · intro h
    simp [TaskStatus.divide, h]

/-- Witness for C10 at the documented inputs: 10 / 0 yields 10 and 10 / 2
yields 5. -/
theorem C10_divide_total_witness :
    TaskStatus.divide 10 0 = (10 : ℚ) ∧ TaskStatus.divide 10 2 = (10 : ℚ) / 2 :=
  ⟨(C10_divide_total 10 0).2 rfl, (C10_divide_total 10 2).1 (by decide)⟩

/-- C9 counterexample: `TaskStatus.add` with `is_time = True` overwrites the
stored `start` unconditionally, so a second MarkStart at a later clock value 2
changes the value set by the first call at clock value 1. -/
theorem C9_counterexample :
    getStart (tsAddIsTime (some (storeEntry 0 100)) 1) = some 1 ∧
    getStart (tsAddIsTime (tsAddIsTime (some (storeEntry 0 100)) 1) 2) = some 2 ∧
    (some 2 : Option Nat) ≠ some 1 := by
  refine ⟨rfl, rfl, by decide⟩

/-- C9 amended: MarkStart is not idempotent; for a registered task every call
stores the current clock value in `start` (last write wins), and the call is a
no-op for an unregistered task. -/
theorem C9_amended_markstart_overwrites (e : TaskEntry) (t1 t2 : Nat) :
    tsAddIsTime (tsAddIsTime (some e) t1) t2 = some (entryUpd e "start" t2) ∧
    getStart (tsAddIsTime (some e) t1) = some t1 ∧
    tsAddIsTime none t1 = none := by
  refine ⟨?_, rfl, rfl⟩
  have hred : tsAddIsTime (tsAddIsTime (some e) t1) t2
      = some (entryUpd (entryUpd e "start" t1) "start" t2) := rfl
  rw [hred]
  refine congrArg some ?_
  funext k
  simp only [entryUpd]
  by_cases hk : k = "start" <;> simp [hk]

/-- The retry loop of `safe_send_message` makes at most one attempt per
remaining attempt index. -/
theorem sendLoop_attempts_le (op : Nat → SendOutcome) (maxA : Nat) :
    ∀ (idxs : List Nat) (sleepAcc made : Nat),
      (sendLoop op maxA idxs sleepAcc made).attempts ≤ made + idxs.length := by
  intro idxs
  induction idxs with
  | nil =>
      intro sleepAcc made
      simp [sendLoop]
  | cons a rest ih =>
      intro sleepAcc made
      rcases hop : op a with v | w | _
      · simp only [sendLoop, hop, List.length_cons]
        omega
      · simp only [sendLoop, hop, List.length_cons]
        have hrec := ih (sleepAcc + (w + 1)) (made + 1)
        omega
      · simp only [sendLoop, hop, List.length_cons]
        by_cases ha : a = maxA - 1
        · simp only [if_pos ha]
          omega
        · simp only [if_neg ha]
          have hrec := ih sleepAcc (made + 1)
          omega

/-- C4: `safe_send_message` sleeps `w + 1` per rate-limit signal carrying wait
`w` and retries, makes at most 3 attempts, returns the success result on the
first succeeding attempt (a run rate-limited twice with `w = 2` then
succeeding returns success on the third attempt after total sleep
`2 * (2 + 1) = 6 ≥ 3`), and a run rate-limited on all 3 attempts surfaces the
failure (`none`, the exhausted-retries signal) to the caller. -/
theorem C4_rate_limit_retry :
    (∀ op : Nat → SendOutcome, (safeSend op).attempts ≤ 3) ∧
    (∀ (op : Nat → SendOutcome) (v : Nat), op 0 = SendOutcome.ok v →
      safeSend op = { result := some v, sleep := 0, attempts := 1 }) ∧
    (∀ (op : Nat → SendOutcome) (w v : Nat),
      op 0 = SendOutcome.flood w → op 1 = SendOutcome.flood w →
      op 2 = SendOutcome.ok v →
      safeSend op = { result := some v, sleep := 2 * (w + 1), attempts := 3 }) ∧
    (∀ (op : Nat → SendOutcome) (w0 w1 w2 : Nat),
      op 0 = SendOutcome.flood w0 → op 1 = SendOutcome.flood w1 →
      op 2 = SendOutcome.flood w2 →
      safeSend op =
        { result := none, sleep := (w0 + 1) + (w1 + 1) + (w2 + 1), attempts := 3 }) := by
  have hr : List.range 3 = [0, 1, 2] := rfl
  refine ⟨?_, ?_, ?_, ?_⟩
  · intro op
    have h := sendLoop_attempts_le op 3 (List.range 3) 0 0
    simpa [safeSend] using h
  · intro op v h0
    simp [safeSend, hr, sendLoop, h0]
  · intro op w v h0 h1 h2
    simp only [safeSend, hr, sendLoop, h0, h1, h2, SendRun.mk.injEq]
    refine ⟨by simp, by omega, by simp⟩
  · intro op w0 w1 w2 h0 h1 h2
    simp only [safeSend, hr, sendLoop, h0, h1, h2]
    by_cases h22 : (2 : Nat) = 3 - 1
    · simp only [if_pos h22, SendRun.mk.injEq]
      refine ⟨by simp, by omega, by simp⟩
    · exact absurd rfl h22

/-- Witness for C4: an operation rate-limited twice with wait 2 and then
succeeding returns success on the third attempt with total sleep 6. -/
theorem C4_rate_limit_retry_witness :
    safeSend (fun i => if i < 2 then SendOutcome.flood 2 else SendOutcome.ok 5) =
      { result := some 5, sleep := 2 * (2 + 1), attempts := 3 } :=
  C4_rate_limit_retry.2.2.1 _ 2 5 rfl rfl rfl

/-- C8: a recipient who blocked the bot increments only the blocked counter
and no store removal is requested; a deactivated recipient increments the
deleted counter and triggers a removal request, and a failure of the removal
call itself (`delOk = false`) does not change the broadcast outcome. -/
theorem C8_broadcast_classification (c : BCount) (delOk : Bool) :
    (broadcastMessages (fun _ => URes.blocked) delOk).removalRequested = false ∧
    stepCounters c (broadcastMessages (fun _ => URes.blocked) delOk) =
      { c with blocked := c.blocked + 1, done := c.done + 1 } ∧
    (broadcastMessages (fun _ => URes.deactivated) delOk).removalRequested = true ∧
    stepCounters c (broadcastMessages (fun _ => URes.deactivated) delOk) =
      { c with deleted := c.deleted + 1, done := c.done + 1 } ∧
    broadcastMessages (fun _ => URes.deactivated) false =
      broadcastMessages (fun _ => URes.deactivated) true :=
  ⟨rfl, rfl, rfl, rfl, rfl⟩

/-- C2: the teardown counter (number of executions of `stop`) is 1 on normal
completion and on an exception raised during dispatch, but 2 on the
cancellation path, where `is_cancelled` runs `stop` and the `finally` block
then runs `finish_forwarding`, which runs `stop` again. -/
theorem C2_teardown_stop_counts :
    stopCount (startPublicRun [DItem.normal] none) = 1 ∧
    stopCount (startPublicRun [DItem.raises] none) = 1 ∧
    stopCount (startPublicRun [DItem.normal] (some 0)) = 2 := by
  refine ⟨by decide, by decide, by decide⟩

/-- C3: the admission prologue can never admit a task: on a fresh key the
`setdefault` call has just stored an `asyncio.Lock`, which the busy check
`temp.lock.get(user_id, False)` reads back as a truthy value, so every
admission attempt in `start_public` and in `unequify` is rejected (or raises
`TypeError` when a boolean from an earlier `stop` is stored). -/
theorem C3_admission_never_proceeds :
    startPublicAdm (fun _ => none) 1 = AdmResult.busy ∧
    unequifyAdm [] (fun _ => none) 1 = UAdmResult.busy ∧
    (∀ (locks : Nat → Option LockVal) (uid : Nat),
      startPublicAdm locks uid = AdmResult.busy ∨
        startPublicAdm locks uid = AdmResult.typeError) ∧
    (∀ (banned : List Nat) (locks : Nat → Option LockVal) (uid : Nat),
      unequifyAdm banned locks uid = UAdmResult.bannedRej ∨
        unequifyAdm banned locks uid = UAdmResult.busy ∨
        unequifyAdm banned locks uid = UAdmResult.typeError) := by
  refine ⟨rfl, rfl, ?_, ?_⟩
  · intro locks uid
    rcases hv : locks uid with _ | v
    · simp [startPublicAdm, hv, truthy]
    · cases v <;> simp [startPublicAdm, hv, truthy]
  · intro banned locks uid
    rcases hv : locks uid with _ | v
    · by_cases hb : uid ∈ banned <;> simp [unequifyAdm, hv, truthy, hb]
    · cases v <;> by_cases hb : uid ∈ banned <;> simp [unequifyAdm, hv, truthy, hb]

/-- One copy-mode iteration preserves the doubled counter bound: an item adds
1 to `fetched` and at most 2 to the outcome counters (a failed copy adds both
`deleted` inside `copy_message` and `total_files` in the loop). -/
theorem copyStep_invariant (s : Sess) (it : CopyItem)
    (h : outcomeSum s ≤ 2 * s.fetched) :
    outcomeSum (copyStep s it) ≤ 2 * (copyStep s it).fetched := by
  cases it with
  | svc =>
      simp [copyStep, outcomeSum] at h ⊢
      omega
  | item copyOk =>
      cases copyOk <;> simp [copyStep, copyMessageUpd, outcomeSum] at h ⊢ <;> omega

/-- The copy-mode loop preserves the doubled counter bound from any state. -/
theorem copyRun_invariant : ∀ (items : List CopyItem) (s : Sess),
    outcomeSum s ≤ 2 * s.fetched →
    outcomeSum (copyRun s items) ≤ 2 * (copyRun s items).fetched := by
  intro items
  induction items with
  | nil =>
      intro s h
      simpa [copyRun] using h
  | cons it rest ih =>
      intro s h
      have h1 := copyStep_invariant s it h
      simpa [copyRun] using ih (copyStep s it) h1

/-- One tag-forward iteration preserves the batch-aware counter bound: every
fetched item is accounted at most once, either in a counter or in the pending
batch. -/
theorem tagStep_invariant (st : TagSt) (it : TagItem)
    (h : outcomeSum st.s + st.batch ≤ st.s.fetched) :
    outcomeSum (tagStep st it).s + (tagStep st it).batch ≤
      (tagStep st it).s.fetched := by
  cases it with
  | svc =>
      simp [tagStep, outcomeSum] at h ⊢
      omega
  | item flushOk =>
      cases flushOk <;>
        · simp only [tagStep, forwardMessagesUpd]
          split <;> simp [outcomeSum] at h ⊢ <;> omega

/-- The tag-forward loop preserves the batch-aware counter bound. -/
theorem tagRun_invariant : ∀ (items : List TagItem) (st : TagSt),
    outcomeSum st.s + st.batch ≤ st.s.fetched →
    outcomeSum (tagRun st items).s + (tagRun st items).batch ≤
      (tagRun st items).s.fetched := by
  intro items
  induction items with
  | nil =>
      intro st h
      simpa [tagRun] using h
  | cons it rest ih =>
      intro st h
      have h1 := tagStep_invariant st it h
      simpa [tagRun] using ih (tagStep st it) h1

/-- C1 counterexample: with a skip count of 5 the freshly initialised session
observed before the first iteration has `fetched = 0 < 5 = skip`, and after a
single copy-mode item whose copy fails the outcome counters sum to 2 while
`fetched = 1`, so `total_files + duplicate + filtered + deleted <= fetched`
fails as well. -/
theorem C1_counterexample :
    (initSess 5 1000).fetched < (initSess 5 1000).skip ∧
    (copyRun (initSess 5 1000) [CopyItem.item false]).fetched <
      outcomeSum (copyRun (initSess 5 1000) [CopyItem.item false]) := by
  decide

/-- C1 amended: `fetched >= skip` does not hold (the loop session starts its
`fetched` at 0 whatever the skip count), and in copy mode a failed copy counts
an item twice; the invariants that do hold at every observed point are
`total_files + duplicate + deleted <= 2 * fetched` in copy mode and
`total_files + duplicate + deleted + pendingBatch <= fetched` in tag-forward
mode (with no `filtered` counter in the session, the spec's filteredCount is
0). -/
theorem C1_amended_invariant (skipCount totalEst : Nat)
    (citems : List CopyItem) (titems : List TagItem) :
    outcomeSum (copyRun (initSess skipCount totalEst) citems) ≤
      2 * (copyRun (initSess skipCount totalEst) citems).fetched ∧
    outcomeSum (tagRun (initTagSt skipCount totalEst) titems).s +
        (tagRun (initTagSt skipCount totalEst) titems).batch ≤
      (tagRun (initTagSt skipCount totalEst) titems).s.fetched := by
  constructor
  · exact copyRun_invariant citems (initSess skipCount totalEst)
      (by simp [initSess, outcomeSum])
  · exact tagRun_invariant titems (initTagSt skipCount totalEst)
      (by simp [initTagSt, initSess, outcomeSum])

set_option maxRecDepth 8000 in
/-- C5 counterexample: with `total = 250` over 250 surviving items the
tag-forward loop does not issue 3 forward calls of sizes 100, 100, 50. -/
theorem C5_counterexample :
    (tagRun (initTagSt 0 250) (List.replicate 250 (TagItem.item true))).flushes ≠
      [100, 100, 50] := by
  decide

set_option maxRecDepth 8000 in
/-- C5 amended: a flush is issued once the batch reaches 100 items or the
remaining count drops to 100 or below, and once the remaining count is that
low every single item is flushed immediately; with `limit = 250` over 250
surviving items the loop issues 102 forward calls of sizes 100, 50, and then
1 for each of the last 100 items, every item is forwarded (the sizes sum to
250), and the tail is flushed before stream end (no pending batch remains). -/
theorem C5_amended_tail_flush :
    (tagRun (initTagSt 0 250) (List.replicate 250 (TagItem.item true))).flushes =
      [100, 50] ++ List.replicate 100 1 ∧
    ((tagRun (initTagSt 0 250) (List.replicate 250 (TagItem.item true))).flushes).sum =
      250 ∧
    (tagRun (initTagSt 0 250) (List.replicate 250 (TagItem.item true))).batch = 0 := by
  decide

/-- C6: `iter_messages` requests `batch_size + 1` ids per round
(`range(current, current + batch_size + 1)`), so on a chat holding messages at
every id it yields more than `limit` messages: 2 messages for `limit = 1`,
`offset = 0`, and 251 messages for `limit = 250`, `offset = 0`, contradicting
the claim (and the function's own docstring) that `limit` bounds the number of
messages returned. -/
theorem C6_enumeration_exceeds_limit :
    (iterMsgs 1 0).length = 2 ∧ (iterMsgs 250 0).length = 251 := by
  constructor <;> simp [iterMsgs]

/-- One dedup iteration either appends the id to the pending side (when the
fingerprint was seen) or records the fingerprint; flushing only moves the
pending batch into `deletedIds`. -/
theorem unequifyStep_ids (st : UneqSt) (p : Nat × Nat) :
    (unequifyStep st p).deletedIds ++ (unequifyStep st p).duplicates
      = st.deletedIds ++ st.duplicates ++
          (if p.2 ∈ st.messages then [p.1] else []) ∧
    (unequifyStep st p).messages
      = (if p.2 ∈ st.messages then st.messages else p.2 :: st.messages) := by
  by_cases hmem : p.2 ∈ st.messages <;>
    · simp only [unequifyStep, hmem, if_true, if_false, reduceIte]
      constructor
      · split <;> simp
      · split <;> simp

/-- Folding the dedup loop collects exactly the ids whose fingerprint occurred
earlier, independently of when batches were flushed. -/
theorem uneqFold_ids (msgs : List (Nat × Nat)) : ∀ st : UneqSt,
    (msgs.foldl unequifyStep st).deletedIds ++ (msgs.foldl unequifyStep st).duplicates
      = st.deletedIds ++ st.duplicates ++ collectDups st.messages msgs := by
  induction msgs with
  | nil =>
      intro st
      simp [collectDups]
  | cons p rest ih =>
      intro st
      simp only [List.foldl_cons]
      rw [ih (unequifyStep st p), (unequifyStep_ids st p).1, (unequifyStep_ids st p).2]
      by_cases hmem : p.2 ∈ st.messages <;>
        simp [collectDups, hmem, List.append_assoc]

/-- One dedup iteration keeps the `deleted` counter equal to the number of
deleted ids. -/
theorem unequifyStep_deleted (st : UneqSt) (p : Nat × Nat)
    (h : st.deleted = st.deletedIds.length) :
    (unequifyStep st p).deleted = (unequifyStep st p).deletedIds.length := by
  by_cases hmem : p.2 ∈ st.messages <;>
    · simp only [unequifyStep, hmem, if_true, if_false, reduceIte]
      split <;> simp [h]

/-- The dedup fold keeps the `deleted` counter equal to the number of deleted
ids. -/
theorem uneqFold_deleted (msgs : List (Nat × Nat)) : ∀ st : UneqSt,
    st.deleted = st.deletedIds.length →
    (msgs.foldl unequifyStep st).deleted
      = (msgs.foldl unequifyStep st).deletedIds.length := by
  induction msgs with
  | nil =>
      intro st h
      simpa using h
  | cons p rest ih =>
      intro st h
      simp only [List.foldl_cons]
      exact ih (unequifyStep st p) (unequifyStep_deleted st p h)

/-- A complete dedup run deletes exactly the documents whose fingerprint
occurred earlier in the stream, and counts them. -/
theorem unequifyRun_spec (msgs : List (Nat × Nat)) :
    (unequifyRun msgs).deletedIds = collectDups [] msgs ∧
    (unequifyRun msgs).deleted = (collectDups [] msgs).length := by
  have hids := uneqFold_ids msgs initUneqSt
  have hdel := uneqFold_deleted msgs initUneqSt rfl
  have hinit : initUneqSt.deletedIds ++ initUneqSt.duplicates ++
      collectDups initUneqSt.messages msgs = collectDups [] msgs := by
    simp [initUneqSt]
  rw [hinit] at hids
  by_cases hdup : (msgs.foldl unequifyStep initUneqSt).duplicates = []
  · have hrun : unequifyRun msgs = msgs.foldl unequifyStep initUneqSt := by
      simp only [unequifyRun]
      rw [if_pos hdup]
    rw [hdup, List.append_nil] at hids
    rw [hrun]
    exact ⟨hids, hdel.trans (congrArg List.length hids)⟩
  · have hrun1 : (unequifyRun msgs).deletedIds
        = (msgs.foldl unequifyStep initUneqSt).deletedIds ++
            (msgs.foldl unequifyStep initUneqSt).duplicates := by
      simp only [unequifyRun]
      rw [if_neg hdup]
    have hrun2 : (unequifyRun msgs).deleted
        = (msgs.foldl unequifyStep initUneqSt).deleted +
            (msgs.foldl unequifyStep initUneqSt).duplicates.length := by
      simp only [unequifyRun]
      rw [if_neg hdup]
    refine ⟨hrun1.trans hids, ?_⟩
    rw [hrun2, hdel, ← List.length_append, hids]

/-- Every id collected as a duplicate is an id of the stream. -/
theorem collectDups_subset (msgs : List (Nat × Nat)) : ∀ (seen : List Nat) (x : Nat),
    x ∈ collectDups seen msgs → x ∈ msgs.map Prod.fst := by
  induction msgs with
  | nil =>
      intro seen x hx
      simp [collectDups] at hx
  | cons p rest ih =>
      intro seen x hx
      by_cases hmem : p.2 ∈ seen
      · simp only [collectDups, if_pos hmem, List.mem_cons] at hx
        rcases hx with h | h
        · simp [h]
        · simp [ih seen x h]
      · simp only [collectDups, if_neg hmem] at hx
        simp [ih _ x hx]

/-- The kept documents carry fingerprints outside the seed set, pairwise
distinct. -/
theorem keepNondups_fresh (msgs : List (Nat × Nat)) : ∀ seen : List Nat,
    (∀ q ∈ keepNondups seen msgs, q.2 ∉ seen) ∧
    ((keepNondups seen msgs).map Prod.snd).Nodup := by
  induction msgs with
  | nil =>
      intro seen
      simp [keepNondups]
  | cons p rest ih =>
      intro seen
      by_cases hmem : p.2 ∈ seen
      · simp only [keepNondups, if_pos hmem]
        exact ih seen
      · simp only [keepNondups, if_neg hmem]
        obtain ⟨ihf, ihn⟩ := ih (p.2 :: seen)
        constructor
        · intro q hq
          rcases List.mem_cons.mp hq with hq1 | hq2
          · rw [hq1]
            exact hmem
          · intro hcon
            exact (ihf q hq2) (List.mem_cons_of_mem _ hcon)
        · simp only [List.map_cons, List.nodup_cons]
          refine ⟨?_, ihn⟩
          intro hcon
          rcases List.mem_map.mp hcon with ⟨q, hq, hq2⟩
          refine (ihf q hq) ?_
          rw [hq2]
          exact List.mem_cons_self _ _

/-- A stream of pairwise-distinct fingerprints, none already seen, produces no
duplicates. -/
theorem collectDups_eq_nil (msgs : List (Nat × Nat)) : ∀ seen : List Nat,
    ((msgs.map Prod.snd).Nodup) → (∀ q ∈ msgs, q.2 ∉ seen) →
    collectDups seen msgs = [] := by
  induction msgs with
  | nil =>
      intro seen _ _
      simp [collectDups]
  | cons p rest ih =>
      intro seen hnd hfresh
      have hmem : p.2 ∉ seen := hfresh p (List.mem_cons_self _ _)
      simp only [collectDups, if_neg hmem]
      have hnd' := hnd
      simp only [List.map_cons, List.nodup_cons] at hnd'
      apply ih (p.2 :: seen) hnd'.2
      intro q hq
      simp only [List.mem_cons]
      push_neg
      constructor
      · intro hcon
        exact hnd'.1 (hcon ▸ List.mem_map_of_mem _ hq)
      · exact hfresh q (List.mem_cons_of_mem _ hq)

/-- With pairwise-distinct message ids, removing the collected duplicate ids
keeps exactly the first occurrence of each fingerprint. -/
theorem filter_keepNondups (msgs : List (Nat × Nat)) : ∀ seen : List Nat,
    (msgs.map Prod.fst).Nodup →
    msgs.filter (fun q => decide (q.1 ∉ collectDups seen msgs))
      = keepNondups seen msgs := by
  induction msgs with
  | nil =>
      intro seen _
      simp [keepNondups]
  | cons p rest ih =>
      intro seen hnd
      have hnd2 := hnd
      simp only [List.map_cons, List.nodup_cons] at hnd2
      obtain ⟨hp, hnd'⟩ := hnd2
      by_cases hmem : p.2 ∈ seen
      · simp only [collectDups, if_pos hmem, keepNondups]
        rw [List.filter_cons_of_neg (by simp)]
        rw [List.filter_congr (fun q hq => ?_)]
        · exact ih seen hnd'
        · have hne : q.1 ≠ p.1 := by
            intro hcon
            exact hp (hcon ▸ List.mem_map_of_mem _ hq)
          simp [List.mem_cons, hne]
      · simp only [collectDups, if_neg hmem, keepNondups]
        rw [List.filter_cons_of_pos ?hkeep]
        case hkeep =>
          simp only [decide_eq_true_eq]
          intro hcon
          exact hp (collectDups_subset rest _ _ hcon)
        rw [ih (p.2 :: seen) hnd']

/-- C7: running the dedup engine a second time over the channel left by a
first run (pairwise-distinct message ids, all delete calls succeeding, no new
content in between) deletes 0 messages: the first run keeps exactly one
message per content fingerprint, and a message is only deleted when its
fingerprint occurred earlier in the stream. -/
theorem C7_dedup_idempotent (msgs : List (Nat × Nat))
    (h : (msgs.map Prod.fst).Nodup) :
    (unequifyRun (channelAfter msgs)).deleted = 0 := by
  have hchan : channelAfter msgs = keepNondups [] msgs := by
    unfold channelAfter
    simp only [(unequifyRun_spec msgs).1]
    exact filter_keepNondups msgs [] h
  have hfresh := keepNondups_fresh msgs []
  have hnil : collectDups [] (keepNondups [] msgs) = [] :=
    collectDups_eq_nil _ [] hfresh.2 (fun q hq => by simp)
  rw [hchan, (unequifyRun_spec (keepNondups [] msgs)).2, hnil]
  rfl

/-- Witness for C7: a concrete channel with fingerprints 7, 7, 8, 7 — the
first run deletes the two later duplicates of fingerprint 7 and the second run
deletes nothing. -/
theorem C7_dedup_idempotent_witness :
    ((([(1, 7), (2, 7), (3, 8), (4, 7)] : List (Nat × Nat)).map Prod.fst).Nodup) ∧
    (unequifyRun (channelAfter [(1, 7), (2, 7), (3, 8), (4, 7)])).deleted = 0 :=
  ⟨by decide, C7_dedup_idempotent _ (by decide)⟩
